import Mathlib

/-!
Verification of the preconf_bot Bid Engine against its specification.

The Go sources are embedded shallowly: pure computations become Lean
functions over `Nat`/`Int`/`ℚ`, fallible operations return `Except` or a
`ProcResult` that distinguishes returned errors from process termination,
and the external collaborators (chain node reads, the kzg library, the
random source, the gRPC stream) are passed in explicitly as data so that
every control path of the repository code is reproduced.

Components covered:
* Bid Computer: the bid-amount sampling in `main.go` (lines 413-415) and
  the wei conversion in `SendPreconfBid`.
* Bid Transport: `SendBid` / `SendPreconfBid` and the response-stream
  drain loop (`core/mevcommit/bidderapi.go`, `internal/mevcommit`).
* Transaction Builder: `SelfETHTransfer`, `ExecuteBlobTransaction`,
  `makeSidecar`, `randBlobs`, `randBlob`, `randFieldElement`
  (`internal/eth/sendtx.go`).
* Connection Manager: `ReconnectWSClient` (`internal/mevcommit/client.go`).
* Orchestrator: the per-header loop body of `main.go` (lines 385-433).
-/

namespace PreconfBot

/-! ## Bid Computer

`main.go` lines 413-415:
  stdDev := bidAmount * stdDevPercentage / 100.0
  randomEthAmount := rand.NormFloat64()*stdDev + bidAmount
  randomEthAmount = math.Max(randomEthAmount, bidAmount)
`SendPreconfBid` then converts the ETH float to wei with
big.Float multiplication by 1e18 followed by big.Float.Int, which
truncates toward zero.  Floats are modelled by exact rationals; the
normal draw `rand.NormFloat64()` is an arbitrary rational `g`. -/

/-- Go `math.Max x y`: the larger of the two arguments (NaN handling of
floats is outside the rational model). -/
def mathMax (x y : ℚ) : ℚ :=
  if x ≤ y then y else x

/-- Truncation of a rational toward zero, the rounding performed by
`big.Float.Int` when `SendPreconfBid` converts ETH to wei. -/
def qtrunc (q : ℚ) : ℤ :=
  Int.tdiv q.num q.den

/-- Conversion from an ETH amount to integer wei as done in
`SendPreconfBid`: multiply exactly by 10^18, then truncate toward zero. -/
def ethToWei (amount : ℚ) : ℤ :=
  qtrunc (amount * 10 ^ 18)

/-- The sampled ETH bid amount from `main.go` lines 413-415: a normal
sample with mean `bidAmount` and standard deviation
`bidAmount * stdDevPct / 100` (the draw `g` is the standard-normal
output), clamped from below at `bidAmount`. -/
def sampleBidAmountEth (bidAmount stdDevPct g : ℚ) : ℚ :=
  mathMax (g * (bidAmount * stdDevPct / 100) + bidAmount) bidAmount

/-- The integer wei amount actually placed into the bid request for a
given configuration and normal draw. -/
def sampleBidAmountWei (bidAmount stdDevPct g : ℚ) : ℤ :=
  ethToWei (sampleBidAmountEth bidAmount stdDevPct g)

theorem qtrunc_eq_floor {q : ℚ} (hq : 0 ≤ q) : qtrunc q = ⌊q⌋ := by
  have hnum : 0 ≤ q.num := Rat.num_nonneg.mpr hq
  have hden : (0 : ℤ) ≤ (q.den : ℤ) := Int.ofNat_nonneg q.den
  rw [qtrunc, Int.tdiv_eq_ediv hnum hden, Rat.floor_def]

theorem le_sampleBidAmountEth (bidAmount stdDevPct g : ℚ) :
    bidAmount ≤ sampleBidAmountEth bidAmount stdDevPct g := by
  unfold sampleBidAmountEth mathMax
  split
  · exact le_refl bidAmount
  · exact le_of_not_le (by assumption)

theorem ethToWei_mono {a b : ℚ} (h0 : 0 ≤ a) (hab : a ≤ b) :
    ethToWei a ≤ ethToWei b := by
  have h0b : 0 ≤ b := le_trans h0 hab
  have ha : (0 : ℚ) ≤ a * 10 ^ 18 := by positivity
  have hb : (0 : ℚ) ≤ b * 10 ^ 18 := by positivity
  rw [ethToWei, ethToWei, qtrunc_eq_floor ha, qtrunc_eq_floor hb]
  exact Int.floor_le_floor (by nlinarith)

theorem ethToWei_eq_floor {a : ℚ} (h0 : 0 ≤ a) : ethToWei a = ⌊a * 10 ^ 18⌋ := by
  rw [ethToWei, qtrunc_eq_floor (by positivity)]

/-- C3 (amended): for every targetEth > 0 and stdDevPercent >= 0 and every
normal draw, the sampled wei amount is at least floor(targetEth * 1e18);
it is moreover positive whenever targetEth >= 1e-18 ETH (one wei).  The
unconditional positivity stated by the claim fails for smaller targets,
see the counterexample. -/
theorem sampleBidAmountWei_ge_floor (t sp g : ℚ) (ht : 0 < t) (hsp : 0 ≤ sp) :
    ⌊t * 10 ^ 18⌋ ≤ sampleBidAmountWei t sp g ∧
      ((1 : ℚ) / 10 ^ 18 ≤ t → 0 < sampleBidAmountWei t sp g) := by
  have h0 : (0 : ℚ) ≤ t := le_of_lt ht
  have hts := le_sampleBidAmountEth t sp g
  have hsamp : (0 : ℚ) ≤ sampleBidAmountEth t sp g := le_trans h0 hts
  constructor
  · calc ⌊t * 10 ^ 18⌋ = ethToWei t := (ethToWei_eq_floor h0).symm
      _ ≤ sampleBidAmountWei t sp g := ethToWei_mono h0 hts
  · intro h18
    have h1 : (1 : ℚ) ≤ sampleBidAmountEth t sp g * 10 ^ 18 := by
      have : (1 : ℚ) / 10 ^ 18 ≤ sampleBidAmountEth t sp g := le_trans h18 hts
      nlinarith
    have : (1 : ℤ) ≤ ⌊sampleBidAmountEth t sp g * 10 ^ 18⌋ := Int.le_floor.mpr (by
      push_cast
      exact h1)
    have hw : sampleBidAmountWei t sp g = ⌊sampleBidAmountEth t sp g * 10 ^ 18⌋ :=
      ethToWei_eq_floor hsamp
    omega

/-- C3 witness: the default configuration (0.001 ETH target, 100 percent
standard deviation) at the mean draw satisfies both conclusions. -/
theorem sampleBidAmountWei_ge_floor_witness :
    ⌊(1 : ℚ) / 1000 * 10 ^ 18⌋ ≤ sampleBidAmountWei (1 / 1000) 100 0 ∧
      ((1 : ℚ) / 10 ^ 18 ≤ 1 / 1000 → 0 < sampleBidAmountWei (1 / 1000) 100 0) :=
  sampleBidAmountWei_ge_floor (1 / 1000) 100 0 (by norm_num) (by norm_num)

/-- C3 counterexample: with targetEth = 1e-19 (a positive target) and zero
standard deviation, the mean draw yields a wei amount of 0, which is not
positive, refuting the claim that the output is always positive. -/
theorem sampleBidAmountWei_not_always_pos :
    sampleBidAmountWei ((1 : ℚ) / 10 ^ 19) 0 0 = 0 ∧
      ¬ (0 < sampleBidAmountWei ((1 : ℚ) / 10 ^ 19) 0 0) := by
  have hs : sampleBidAmountEth ((1 : ℚ) / 10 ^ 19) 0 0 = (1 : ℚ) / 10 ^ 19 := by
    unfold sampleBidAmountEth mathMax
    norm_num
  have hmul : ((1 : ℚ) / 10 ^ 19) * 10 ^ 18 = 1 / 10 := by norm_num
  have hfl : (⌊((1 : ℚ) / 10)⌋ : ℤ) = 0 := by
    rw [Int.floor_eq_zero_iff]
    constructor <;> norm_num
  have h : sampleBidAmountWei ((1 : ℚ) / 10 ^ 19) 0 0 = 0 := by
    rw [sampleBidAmountWei, hs, ethToWei_eq_floor (by norm_num), hmul, hfl]
  exact ⟨h, by omega⟩

/-! ## Bid Transport

`SendBid` (core/mevcommit/bidderapi.go lines 18-94, and the near-identical
internal snapshot) takes an untyped input that is either a list of
transaction-hash strings or a list of transaction objects; anything else
is rejected before the streaming call.  Go strings are modelled as
`List Char`; the textual bid amount is modelled by the integer it prints.
A signed transaction is modelled by the data `SendBid` observes of it:
its RLP encoding from MarshalBinary (or the fact that MarshalBinary
fails) and its hash string. -/

/-- A signed transaction as seen by the transport: the bytes produced by
MarshalBinary, whether MarshalBinary fails, and the hash string. -/
structure GoTx where
  raw : List Nat
  marshalErr : Bool
  hashHex : List Char
deriving DecidableEq

/-- Go strings.TrimPrefix(hash, "0x"): drop a leading "0x" if present,
otherwise return the string unchanged. -/
def trimHexMarker : List Char → List Char
  | '0' :: 'x' :: rest => rest
  | s => s

/-- One hex digit (lowercase), as produced by Go hex.EncodeToString. -/
def hexDigit (n : Nat) : Char :=
  if n < 10 then Char.ofNat (48 + n) else Char.ofNat (87 + n)

/-- Go hex.EncodeToString on a byte slice: two lowercase hex digits per
byte. -/
def hexEncode (bs : List Nat) : List Char :=
  (bs.map (fun b => [hexDigit (b / 16 % 16), hexDigit (b % 16)])).flatten

/-- The dynamic input type of `SendBid`: Go `[]string`, Go
`[]*types.Transaction`, or any other dynamic type (the `default` case of
the type switch). -/
inductive SendBidInput where
  | hashes (hs : List (List Char))
  | txs (ts : List GoTx)
  | unsupported
deriving DecidableEq

/-- The protobuf bid request `pb.Bid`.  The two payload fields default to
nil, exactly as unset protobuf repeated fields. -/
structure BidRequest where
  amount : ℤ
  blockNumber : ℤ
  decayStartTimestamp : ℤ
  decayEndTimestamp : ℤ
  txHashes : List (List Char) := []
  rawTransactions : List (List Char) := []
deriving DecidableEq

/-- The marshalling loop of `SendBid`'s transaction branch: RLP-encode
each transaction, hex-encode the bytes; the first MarshalBinary failure
aborts the whole call with an error. -/
def marshalRawTransactions : List GoTx → Except String (List (List Char))
  | [] => .ok []
  | t :: ts =>
    if t.marshalErr then .error "failed to marshal transaction"
    else
      match marshalRawTransactions ts with
      | .error e => .error e
      | .ok rest => .ok (hexEncode t.raw :: rest)

/-- What `SendBid` does up to and including the streaming call: the
constructed request (or the returned error) and whether the underlying
`b.client.SendBid` stream call was reached. -/
structure SendBidOutcome where
  result : Except String BidRequest
  streamCalled : Bool

/-- `SendBid` (core/mevcommit/bidderapi.go lines 18-73): classify the
input, build the request, populate at most one payload field (the Go code
tests `len(txHashes) > 0` and then `len(rawTransactions) > 0`), and open
the stream.  Unsupported inputs and marshal failures return before the
stream call. -/
def sendBid (input : SendBidInput) (amount blockNumber decayStart decayEnd : ℤ) :
    SendBidOutcome :=
  match input with
  | .unsupported =>
      { result := .error "unsupported input type", streamCalled := false }
  | .hashes hs =>
      let txHashes := hs.map trimHexMarker
      let base : BidRequest :=
        { amount := amount, blockNumber := blockNumber,
          decayStartTimestamp := decayStart, decayEndTimestamp := decayEnd }
      let req := if 0 < txHashes.length then { base with txHashes := txHashes } else base
      { result := .ok req, streamCalled := true }
  | .txs ts =>
      match marshalRawTransactions ts with
      | .error e => { result := .error e, streamCalled := false }
      | .ok raws =>
          let base : BidRequest :=
            { amount := amount, blockNumber := blockNumber,
              decayStartTimestamp := decayStart, decayEndTimestamp := decayEnd }
          let req := if 0 < raws.length then { base with rawTransactions := raws } else base
          { result := .ok req, streamCalled := true }

/-- The claim's payload invariant: exactly one of the two payload fields
of a bid request is populated. -/
def exactlyOnePayload (b : BidRequest) : Prop :=
  (b.txHashes ≠ [] ∧ b.rawTransactions = []) ∨
    (b.txHashes = [] ∧ b.rawTransactions ≠ [])

theorem marshalRawTransactions_ok (ts : List GoTx)
    (h : ∀ t ∈ ts, t.marshalErr = false) :
    marshalRawTransactions ts = .ok (ts.map (fun t => hexEncode t.raw)) := by
  induction ts with
  | nil => rfl
  | cons t ts ih =>
      have ht : t.marshalErr = false := h t (List.mem_cons_self t ts)
      have hrest := ih (fun u hu => h u (List.mem_cons_of_mem t hu))
      simp [marshalRawTransactions, ht, hrest]

theorem sendBid_hashes_result (amount bn ds de : ℤ) (hs : List (List Char))
    (hne : hs ≠ []) :
    (sendBid (SendBidInput.hashes hs) amount bn ds de).result =
      .ok { amount := amount, blockNumber := bn, decayStartTimestamp := ds,
            decayEndTimestamp := de, txHashes := hs.map trimHexMarker,
            rawTransactions := [] } := by
  have hlen : 0 < (hs.map trimHexMarker).length := by
    rw [List.length_map]
    exact List.length_pos.mpr hne
  simp only [sendBid]
  rw [if_pos hlen]

theorem sendBid_txs_result (amount bn ds de : ℤ) (ts : List GoTx)
    (hne : ts ≠ []) (hok : ∀ t ∈ ts, t.marshalErr = false) :
    (sendBid (SendBidInput.txs ts) amount bn ds de).result =
      .ok { amount := amount, blockNumber := bn, decayStartTimestamp := ds,
            decayEndTimestamp := de, txHashes := [],
            rawTransactions := ts.map (fun t => hexEncode t.raw) } := by
  have hlen : 0 < (ts.map (fun t => hexEncode t.raw)).length := by
    rw [List.length_map]
    exact List.length_pos.mpr hne
  simp only [sendBid, marshalRawTransactions_ok ts hok]
  rw [if_pos hlen]

/-- C2 (amended): for every nonempty hash-string list, and every nonempty
transaction list whose transactions all marshal, the constructed bid
request populates exactly one payload field; for the empty list the code
populates neither field (see the counterexample), so the claim holds only
for nonempty inputs. -/
theorem sendBid_exactlyOnePayload (amount bn ds de : ℤ) :
    (∀ hs, hs ≠ [] → ∀ b,
        (sendBid (SendBidInput.hashes hs) amount bn ds de).result = .ok b →
        exactlyOnePayload b) ∧
    (∀ ts, ts ≠ [] → (∀ t ∈ ts, t.marshalErr = false) → ∀ b,
        (sendBid (SendBidInput.txs ts) amount bn ds de).result = .ok b →
        exactlyOnePayload b) := by
  constructor
  · intro hs hne b hb
    rw [sendBid_hashes_result amount bn ds de hs hne] at hb
    injection hb with hb
    subst hb
    left
    refine ⟨?_, rfl⟩
    intro hcon
    exact hne (List.map_eq_nil_iff.mp hcon)
  · intro ts hne hok b hb
    rw [sendBid_txs_result amount bn ds de ts hne hok] at hb
    injection hb with hb
    subst hb
    right
    refine ⟨rfl, ?_⟩
    intro hcon
    exact hne (List.map_eq_nil_iff.mp hcon)

/-- C2 witness: a one-element hash list yields a request with the hash
list populated and the raw list empty. -/
theorem sendBid_exactlyOnePayload_witness :
    exactlyOnePayload
      { amount := 1, blockNumber := 100, decayStartTimestamp := 0,
        decayEndTimestamp := 36000, txHashes := [['a', 'b']],
        rawTransactions := [] } :=
  (sendBid_exactlyOnePayload 1 100 0 36000).1 [['a', 'b']]
    (List.cons_ne_nil _ _) _ rfl

/-- C2 counterexample: the empty hash list is accepted (the stream call is
reached) but the constructed request populates neither payload field,
refuting the claim for the empty list. -/
theorem sendBid_emptyList_neitherPopulated :
    (sendBid (SendBidInput.hashes []) 1 100 0 36000).streamCalled = true ∧
    (sendBid (SendBidInput.hashes []) 1 100 0 36000).result =
      .ok { amount := 1, blockNumber := 100, decayStartTimestamp := 0,
            decayEndTimestamp := 36000, txHashes := [], rawTransactions := [] } ∧
    ¬ exactlyOnePayload
      { amount := 1, blockNumber := 100, decayStartTimestamp := 0,
        decayEndTimestamp := 36000, txHashes := [], rawTransactions := [] } := by
  refine ⟨rfl, rfl, ?_⟩
  simp [exactlyOnePayload]

/-- C7: any input that is neither a hash-string list nor a transaction
list is rejected with an unsupported-input error before the stream call;
hash inputs have any leading 0x stripped from every element. -/
theorem sendBid_unsupported_rejected (amount bn ds de : ℤ) :
    ((sendBid SendBidInput.unsupported amount bn ds de).streamCalled = false ∧
      (sendBid SendBidInput.unsupported amount bn ds de).result =
        .error "unsupported input type") ∧
    (∀ hs b, (sendBid (SendBidInput.hashes hs) amount bn ds de).result = .ok b →
        b.txHashes = hs.map trimHexMarker) ∧
    (∀ v, trimHexMarker ('0' :: 'x' :: v) = v) := by
  refine ⟨⟨rfl, rfl⟩, ?_, fun v => rfl⟩
  intro hs b hb
  cases hs with
  | nil =>
      injection hb with hb
      subst hb
      rfl
  | cons h0 hs =>
      rw [sendBid_hashes_result amount bn ds de (h0 :: hs) (List.cons_ne_nil h0 hs)] at hb
      injection hb with hb
      subst hb
      rfl

/-- C7 witness: concrete instances — a bare-integer-style unsupported
input never reaches the stream, the request built for the hash "0xabc"
carries the stripped hash, and the 0x marker is removed. -/
theorem sendBid_unsupported_rejected_witness :
    ((sendBid SendBidInput.unsupported 1 100 0 36000).streamCalled = false ∧
      (sendBid SendBidInput.unsupported 1 100 0 36000).result =
        .error "unsupported input type") ∧
    ({ amount := 1, blockNumber := 100, decayStartTimestamp := 0,
       decayEndTimestamp := 36000, txHashes := [['a', 'b', 'c']],
       rawTransactions := [] } : BidRequest).txHashes =
      [['0', 'x', 'a', 'b', 'c']].map trimHexMarker ∧
    trimHexMarker ('0' :: 'x' :: ['a', 'b', 'c']) = ['a', 'b', 'c'] :=
  ⟨(sendBid_unsupported_rejected 1 100 0 36000).1,
    (sendBid_unsupported_rejected 1 100 0 36000).2.1
      [['0', 'x', 'a', 'b', 'c']] _ rfl,
    (sendBid_unsupported_rejected 1 100 0 36000).2.2 ['a', 'b', 'c']⟩

/-! ## Response-stream drain loop

`SendBid`'s receive loop (core/mevcommit/bidderapi.go lines 76-87; the
internal snapshot has `continue` on the error branch, with the same
control flow): `Recv` until io.EOF breaks the loop; a non-EOF error is
logged and the loop keeps polling.  A gRPC stream delivers finitely many
messages and then a terminal status that every further `Recv` repeats
(EOF for a cleanly closed stream, a sticky error otherwise). -/

/-- Terminal status of a gRPC response stream. -/
inductive StreamTermination where
  | eof
  | failed (code : Nat)
deriving DecidableEq

/-- A response stream: finitely many commitment messages followed by a
terminal status that repeats on every later Recv. -/
structure BidStream where
  msgs : List Nat
  ending : StreamTermination
deriving DecidableEq

/-- Outcome of one Recv call. -/
inductive RecvOut where
  | msg (m : Nat)
  | eof
  | failed (code : Nat)
deriving DecidableEq

/-- The i-th Recv on a stream: the i-th message while any remain, then
the sticky terminal status. -/
def recvAt (s : BidStream) (i : Nat) : RecvOut :=
  if i < s.msgs.length then .msg (s.msgs.getD i 0)
  else
    match s.ending with
    | .eof => .eof
    | .failed c => .failed c

/-- What the loop body does with one Recv outcome. -/
inductive LoopAction where
  | stop
  | keepGoing
deriving DecidableEq

/-- The drain-loop body from the source: only io.EOF breaks; a message is
logged and the loop continues; a non-EOF error is logged and the loop
also continues. -/
def drainAction : RecvOut → LoopAction
  | .eof => .stop
  | .msg _ => .keepGoing
  | .failed _ => .keepGoing

/-- The drain loop itself, running from Recv index `i` with the given
fuel: returns the index at which it broke out, or none if it was still
polling when the fuel ran out. -/
def drainFrom (s : BidStream) : Nat → Nat → Option Nat
  | _, 0 => none
  | i, fuel + 1 =>
      match drainAction (recvAt s i) with
      | .stop => some i
      | .keepGoing => drainFrom s (i + 1) fuel

theorem drainFrom_eof (s : BidStream) (heof : s.ending = .eof) :
    ∀ n i, i + n = s.msgs.length → drainFrom s i (n + 1) = some s.msgs.length := by
  intro n
  induction n with
  | zero =>
      intro i hi
      simp at hi
      subst hi
      simp [drainFrom, recvAt, heof, drainAction]
  | succ n ih =>
      intro i hi
      have hlt : i < s.msgs.length := by omega
      have : drainAction (recvAt s i) = .keepGoing := by
        simp [recvAt, hlt, drainAction]
      simp [drainFrom, this]
      exact ih (i + 1) (by omega)

theorem drainFrom_failed (s : BidStream) (c : Nat) (hf : s.ending = .failed c) :
    ∀ fuel i, drainFrom s i fuel = none := by
  intro fuel
  induction fuel with
  | zero => intro i; rfl
  | succ fuel ih =>
      intro i
      have : drainAction (recvAt s i) = .keepGoing := by
        by_cases hlt : i < s.msgs.length <;> simp [recvAt, hlt, hf, drainAction]
      simp [drainFrom, this]
      exact ih (i + 1)

/-- C8 (amended): the drain loop stops exactly at end-of-stream, after
consuming every message; a mid-stream receive error is logged and never
escalated, but the loop keeps polling instead of treating the stream as
ended, so a stream whose terminal status is an error is never finished
draining (the loop does not terminate). -/
theorem drainLoop_behaviour (s : BidStream) :
    (s.ending = .eof →
        drainFrom s 0 (s.msgs.length + 1) = some s.msgs.length) ∧
    (∀ c, s.ending = .failed c → ∀ fuel i, drainFrom s i fuel = none) :=
  ⟨fun heof => drainFrom_eof s heof s.msgs.length 0 (by omega),
   fun c hf => drainFrom_failed s c hf⟩

/-- C8 witness: a two-message stream closed by EOF is drained in exactly
three Recv calls; an error-terminated stream is still polling after 50
Recv calls. -/
theorem drainLoop_behaviour_witness :
    drainFrom ⟨[4, 7], .eof⟩ 0 3 = some 2 ∧
      drainFrom ⟨[4, 7], .failed 13⟩ 0 50 = none :=
  ⟨(drainLoop_behaviour ⟨[4, 7], .eof⟩).1 rfl,
   (drainLoop_behaviour ⟨[4, 7], .failed 13⟩).2 13 rfl 50 0⟩

/-- C8 counterexample: on a mid-stream receive error the loop body does
not stop — it keeps polling — and an error-terminated empty stream has
not terminated after 100 iterations, refuting the claim that the loop
stops receiving on a mid-stream error and terminates for every stream. -/
theorem drainLoop_error_keepsPolling :
    drainAction (RecvOut.failed 7) = LoopAction.keepGoing ∧
      drainFrom ⟨[], .failed 7⟩ 0 100 = none := by
  constructor
  · rfl
  · decide

/-! ## SendPreconfBid and the orchestrator loop body

`SendPreconfBid` (internal/mevcommit snapshot) receives either a
transaction-hash string or a (possibly nil) transaction object, computes
the decay window (now, now + 36s) and the wei amount, and forwards one
call to `Bidder.SendBid`; a nil transaction and an unsupported input
return without calling `SendBid`.

The orchestrator loop body (main.go lines 385-433) builds a transaction,
logs a build error, and then runs the bid section regardless: the
`if err != nil { continue }` guard sits after the bid calls, so a failed
build still reaches `SendPreconfBid` (payload mode: with the nil
transaction, whose nil guard then suppresses the stream call) or
`SendBundle` (bundle mode: dereferencing the nil transaction, a panic). -/

/-- The dynamic input of `SendPreconfBid`: a hash string, a possibly-nil
transaction pointer, or anything else. -/
inductive PreconfInput where
  | hashText (s : List Char)
  | txObj (t : Option GoTx)
  | unsupported
deriving DecidableEq

/-- Observable behaviour of one `SendPreconfBid` call: the decay window,
the wei amount, and the input forwarded to `Bidder.SendBid`, if the call
was made at all. -/
structure PreconfOutcome where
  decayStart : ℤ
  decayEnd : ℤ
  amountWei : ℤ
  blockNumber : ℤ
  forwarded : Option SendBidInput

/-- `SendPreconfBid`: decay window = (now, now + 36000 ms) ("36 seconds,
2 blocks"), ETH-to-wei conversion via big.Float, then one `SendBid` call
with either the 0x-stripped hash in a one-element string list or the
transaction in a one-element transaction list; nil transactions and
unsupported inputs return without bidding. -/
def sendPreconfBid (now : ℤ) (input : PreconfInput) (blockNumber : ℤ)
    (randomEthAmount : ℚ) : PreconfOutcome :=
  let decayStart := now
  let decayEnd := now + 36000
  let amountWei := ethToWei randomEthAmount
  match input with
  | .hashText v =>
      { decayStart := decayStart, decayEnd := decayEnd, amountWei := amountWei,
        blockNumber := blockNumber, forwarded := some (.hashes [trimHexMarker v]) }
  | .txObj none =>
      { decayStart := decayStart, decayEnd := decayEnd, amountWei := amountWei,
        blockNumber := blockNumber, forwarded := none }
  | .txObj (some t) =>
      { decayStart := decayStart, decayEnd := decayEnd, amountWei := amountWei,
        blockNumber := blockNumber, forwarded := some (.txs [t]) }
  | .unsupported =>
      { decayStart := decayStart, decayEnd := decayEnd, amountWei := amountWei,
        blockNumber := blockNumber, forwarded := none }

/-- The calls the loop body makes for one header, and whether it panics
on the nil transaction. -/
structure IterEffects where
  preconfCalled : Bool
  bundleCalled : Bool
  bidStreamOpened : Bool
  panicked : Bool
deriving DecidableEq

/-- The per-header loop body of main.go (lines 385-433): build (already
performed, its result passed in), log on error, then the bid section —
which the code reaches even when the build failed, because the
`if err != nil { continue }` guard is placed after it. -/
def processHeader (usePayload : Bool) (now : ℤ) (bidAmount stdDevPct g : ℚ)
    (buildRes : Except String (GoTx × ℤ)) : IterEffects :=
  let randomEthAmount := sampleBidAmountEth bidAmount stdDevPct g
  match buildRes with
  | .ok (tx, bn) =>
      if usePayload then
        let o := sendPreconfBid now (.txObj (some tx)) bn randomEthAmount
        { preconfCalled := true, bundleCalled := false,
          bidStreamOpened := o.forwarded.isSome, panicked := false }
      else
        let o := sendPreconfBid now (.hashText tx.hashHex) bn randomEthAmount
        { preconfCalled := true, bundleCalled := true,
          bidStreamOpened := o.forwarded.isSome, panicked := false }
  | .error _ =>
      if usePayload then
        let o := sendPreconfBid now (.txObj none) 0 randomEthAmount
        { preconfCalled := true, bundleCalled := false,
          bidStreamOpened := o.forwarded.isSome, panicked := false }
      else
        { preconfCalled := false, bundleCalled := true,
          bidStreamOpened := false, panicked := true }

/-- C1: evaluation of the loop body at a failed build.  In payload mode
the loop still invokes `SendPreconfBid` (with the nil transaction, whose
internal nil guard is all that keeps a bid from going out), and in bundle
mode it still invokes `SendBundle` — the claim that neither is invoked on
a build failure does not hold of the code, whose err-continue guard sits
after the bid calls.  For comparison, a successful build opens the bid
stream. -/
theorem processHeader_buildFailure_still_bids :
    (processHeader true 0 (1 / 1000) 100 0
        (.error "failed to get pending nonce")).preconfCalled = true ∧
    (processHeader true 0 (1 / 1000) 100 0
        (.error "failed to get pending nonce")).bidStreamOpened = false ∧
    (processHeader false 0 (1 / 1000) 100 0
        (.error "failed to get pending nonce")).bundleCalled = true ∧
    (processHeader false 0 (1 / 1000) 100 0
        (.error "failed to get pending nonce")).panicked = true ∧
    (processHeader true 0 (1 / 1000) 100 0
        (.ok (⟨[1], false, ['a']⟩, 101))).bidStreamOpened = true :=
  ⟨rfl, rfl, rfl, rfl, rfl⟩

/-- Outcome of running a piece of the Go program: a returned value, a
returned error, or process termination through os.Exit. -/
inductive ProcResult (α : Type) where
  | ok (a : α)
  | err (e : String)
  | exit (code : ℕ)

/-- Whether a program piece terminated the process (os.Exit) rather than
returning. -/
def exitsProcess {α : Type} : ProcResult α → Bool
  | .exit _ => true
  | _ => false

/-! ## Connection Manager

`ReconnectWSClient` (internal/mevcommit/client.go lines 185-207): up to
10 attempts.  Each attempt first calls `ConnectWSClient`, which itself
retries dialling forever and only ever returns a fresh successful client
(client.go lines 173-182), and then re-issues `SubscribeNewHead` on that
fresh client; only the subscription step can fail an attempt.  A failed
attempt sleeps a fixed 5 seconds (5000 ms) before the next.  After the
10th failure the routine calls go-ethereum log.Crit, which logs and then
terminates the process with os.Exit(1); the `return nil, nil` after it is
dead code, so exhaustion is a process exit, not a returned result.
Attempt `i` (0-indexed) subscribing on the client dialled in that same
attempt is recorded by returning the pair `(i, i)` — connection handle
and subscription both from attempt `i`. -/

/-- The retry loop of `ReconnectWSClient`, from attempt index `i` with
`left` attempts remaining: the outcome (the client id paired with the
subscription id, both the index of the successful attempt, or the
log.Crit process exit on exhaustion) together with the total
milliseconds slept in `time.Sleep(5 * time.Second)` calls.  `subOk i`
tells whether the subscription issued during attempt `i` succeeds. -/
def reconnectLoop (subOk : Nat → Bool) : Nat → Nat → ProcResult (Nat × Nat) × Nat
  | _, 0 => (.exit 1, 0)
  | i, left + 1 =>
      if subOk i then (.ok (i, i), 0)
      else
        let r := reconnectLoop subOk (i + 1) left
        (r.1, r.2 + 5000)

/-- `ReconnectWSClient`: the loop above, started at attempt 0 with 10
attempts available. -/
def reconnectWSClient (subOk : Nat → Bool) : ProcResult (Nat × Nat) × Nat :=
  reconnectLoop subOk 0 10

theorem reconnectLoop_first_success (subOk : Nat → Bool) :
    ∀ left i N, i ≤ N → N < i + left → (∀ j, i ≤ j → j < N → subOk j = false) →
      subOk N = true →
      reconnectLoop subOk i left = (.ok (N, N), 5000 * (N - i)) := by
  intro left
  induction left with
  | zero => intro i N hiN hlt; omega
  | succ left ih =>
      intro i N hiN hlt hfail hN
      by_cases hi : i = N
      · subst hi
        simp [reconnectLoop, hN]
      · have hfi : subOk i = false := hfail i (le_refl i) (by omega)
        have hrec := ih (i + 1) N (by omega) (by omega)
          (fun j hj hjN => hfail j (by omega) hjN) hN
        simp [reconnectLoop, hfi, hrec]
        omega

theorem reconnectLoop_exhausted (subOk : Nat → Bool) :
    ∀ left i, (∀ j, i ≤ j → j < i + left → subOk j = false) →
      reconnectLoop subOk i left = (.exit 1, 5000 * left) := by
  intro left
  induction left with
  | zero => intro i _; rfl
  | succ left ih =>
      intro i hfail
      have hfi : subOk i = false := hfail i (le_refl i) (by omega)
      have hrec := ih (i + 1) (fun j hj hjlt => hfail j (by omega) (by omega))
      simp [reconnectLoop, hfi, hrec]
      ring

/-- C6 (amended): the resubscription routine makes at most 10 attempts,
each one first re-establishing the connection (a fresh client per
attempt) and then re-issuing the subscription, with a fixed 5-second
sleep after every failure.  If the first N attempts fail with N < 10 and
attempt N (the (N+1)-th) succeeds, it returns the handle and subscription
created in that attempt after N sleeps.  If all 10 attempts fail it stops
retrying, but it does not return a none result: log.Crit terminates the
process with os.Exit(1) after the 10th sleep (see the counterexample). -/
theorem reconnectWSClient_policy (subOk : Nat → Bool) :
    (∀ N, N < 10 → (∀ j, j < N → subOk j = false) → subOk N = true →
        reconnectWSClient subOk = (.ok (N, N), 5000 * N)) ∧
    ((∀ j, j < 10 → subOk j = false) →
        reconnectWSClient subOk = (.exit 1, 5000 * 10)) := by
  constructor
  · intro N hN hfail hsucc
    have := reconnectLoop_first_success subOk 10 0 N (by omega) (by omega)
      (fun j _ hjN => hfail j hjN) hsucc
    simpa [reconnectWSClient] using this
  · intro hfail
    have := reconnectLoop_exhausted subOk 10 0 (fun j _ hj => hfail j (by omega))
    simpa [reconnectWSClient] using this

/-- C6 witness: with the first three subscriptions failing and the fourth
succeeding, the routine returns the attempt-3 handle after three 5-second
sleeps; with every subscription failing, it exhausts all 10 attempts and
the process exits. -/
theorem reconnectWSClient_policy_witness :
    reconnectWSClient (fun i => i == 3) = (.ok (3, 3), 5000 * 3) ∧
      reconnectWSClient (fun _ => false) = (.exit 1, 5000 * 10) :=
  ⟨(reconnectWSClient_policy (fun i => i == 3)).1 3 (by omega)
      (fun j hj => by interval_cases j <;> rfl) rfl,
    (reconnectWSClient_policy (fun _ => false)).2 (fun j _ => rfl)⟩

/-- C6 counterexample: with every subscription attempt failing, the
routine never returns a none result to its caller — after the 10th
failed attempt (and its sleep) log.Crit terminates the process with
os.Exit(1), the `return nil, nil` after it being dead code — refuting
the claim that exhaustion reports failure by returning none. -/
theorem reconnectWSClient_exhaustion_exits :
    reconnectWSClient (fun _ => false) = (ProcResult.exit 1, 5000 * 10) ∧
      exitsProcess (reconnectWSClient (fun _ => false)).1 = true :=
  ⟨rfl, rfl⟩

/-! ## Transaction Builder: blob generation (internal/eth/sendtx.go)

`randFieldElement` (lines 298-310) reads 32 random bytes; if the read
fails it calls os.Exit(1).  On success it calls `fr.Element.SetBytes`,
which interprets the bytes as a big-endian integer and reduces it modulo
the BLS12-381 scalar-field order, and `SerializeScalar` writes the
reduced element back out.  Draws are modelled as the natural number the
32 bytes denote; the random source is an indexed stream of draws
(`Option` for the fallible variant).  `randBlob` (lines 288-295) fills a
131072-byte blob in 32-byte steps: 4096 field elements. -/

/-- The BLS12-381 scalar-field order (the modulus of gnark-crypto fr). -/
def blsModulus : ℕ :=
  52435875175126190479447740508185965837690552500527637822603658699938581184513

/-- `randFieldElement` applied to a successful 32-byte draw: SetBytes
reduces the drawn integer modulo the field order (silent wrap), and the
serialized scalar is that reduced value. -/
def randFieldElement (draw : ℕ) : ℕ :=
  draw % blsModulus

/-- Modelled from the spec: the reject-and-redraw sampling the spec
describes for blob scalars ("reject/retry bytes that don't reduce
validly rather than silently wrapping") — keep drawing until a draw is
already a valid (canonical) field element and return that draw.  This
definition exists only to compare against `randFieldElement`, which is
what the source implements. -/
def rejectRetryFieldElement (src : ℕ → ℕ) : ℕ → ℕ → Option ℕ
  | _, 0 => none
  | i, fuel + 1 =>
      if src i < blsModulus then some (src i)
      else rejectRetryFieldElement src (i + 1) fuel

/-- Field elements per blob: a 131072-byte blob in 32-byte scalars. -/
def scalarsPerBlob : ℕ := 4096

/-- `randBlob`: one blob of 4096 scalars, from consecutive draws starting
at `start`. -/
def randBlob (src : ℕ → ℕ) (start : ℕ) : List ℕ :=
  (List.range scalarsPerBlob).map (fun j => randFieldElement (src (start + j)))

/-- `randBlobs`: `n` blobs from consecutive draws. -/
def randBlobs (src : ℕ → ℕ) (n : ℕ) : List (List ℕ) :=
  (List.range n).map (fun i => randBlob src (i * scalarsPerBlob))

/-- C5 (amended): every scalar placed into a generated blob is a valid
field element, but it is obtained by silently reducing the drawn bytes
modulo the field order (`SetBytes`), not by rejecting and re-drawing
invalid draws. -/
theorem randBlob_scalars_reduced (src : ℕ → ℕ) (start : ℕ) :
    (∀ x, x ∈ randBlob src start → x < blsModulus) ∧
      randBlob src start =
        (List.range scalarsPerBlob).map (fun j => src (start + j) % blsModulus) := by
  constructor
  · intro x hx
    obtain ⟨j, _, hje⟩ := List.mem_map.mp hx
    rw [← hje, randFieldElement]
    exact Nat.mod_lt _ (by norm_num [blsModulus])
  · rfl

/-- C5 witness: a constant source of the draw 5 yields only the valid
scalar 5 (5 is below the modulus and is its own reduction). -/
theorem randBlob_scalars_reduced_witness :
    (5 : ℕ) < blsModulus ∧
      randBlob (fun _ => 5) 0 =
        (List.range scalarsPerBlob).map (fun _ => 5 % blsModulus) := by
  refine ⟨?_, (randBlob_scalars_reduced (fun _ => 5) 0).2⟩
  refine (randBlob_scalars_reduced (fun _ => 5) 0).1 5 ?_
  rw [randBlob]
  refine List.mem_map.mpr ⟨0, List.mem_range.mpr (by norm_num [scalarsPerBlob]), ?_⟩
  norm_num [randFieldElement, blsModulus]

/-- C5 counterexample: feed the code a first draw equal to the field
order itself — an invalid canonical encoding.  The source accepts it and
silently wraps it to 0, whereas the reject-and-redraw procedure the claim
describes discards it and returns the next draw, 1. -/
theorem randFieldElement_wraps_invalid_draw :
    randFieldElement blsModulus = 0 ∧
      rejectRetryFieldElement
          (fun i => if i = 0 then blsModulus else 1) 0 2 = some 1 := by
  constructor
  · rw [randFieldElement]
    exact Nat.mod_self blsModulus
  · decide

/-! ## Transaction Builder: sidecar and the two builders

The kzg4844 library (BlobToCommitment, ComputeBlobProof) and the blob
versioned-hash derivation (types.BlobTxSidecar.BlobHashes, one hash per
commitment) are external collaborators; they enter the model as an
explicit scheme of three functions.  Likewise the eip4844 blob-base-fee
computation (CalcExcessBlobGas/CalcBlobFee over the parent header) enters
as one function of the header. -/

/-- The external kzg4844 interface used by the builder. -/
structure KZGScheme where
  blobToCommitment : List ℕ → ℕ
  computeBlobProof : List ℕ → ℕ → ℕ
  hashFromCommitment : ℕ → ℕ

/-- types.BlobTxSidecar: blobs with their commitments and proofs. -/
structure BlobTxSidecar where
  blobs : List (List ℕ)
  commitments : List ℕ
  proofs : List ℕ

/-- `makeSidecar` (sendtx.go lines 256-276): for each blob, in order,
compute its commitment and the proof for that blob-commitment pair. -/
def makeSidecar (K : KZGScheme) (blobs : List (List ℕ)) : BlobTxSidecar :=
  { blobs := blobs
    commitments := blobs.map K.blobToCommitment
    proofs := blobs.map (fun b => K.computeBlobProof b (K.blobToCommitment b)) }

/-- types.BlobTxSidecar.BlobHashes: the versioned hash of each
commitment, in order. -/
def sidecarBlobHashes (K : KZGScheme) (sc : BlobTxSidecar) : List ℕ :=
  sc.commitments.map K.hashFromCommitment

/-- The scalar-collection loop of `randBlob` with a fallible byte source:
a failed rand.Read calls os.Exit(1); a successful draw is reduced modulo
the field order. -/
def collectScalars (src : ℕ → Option ℕ) : ℕ → ℕ → ProcResult (List ℕ)
  | _, 0 => .ok []
  | start, c + 1 =>
      match src start with
      | none => .exit 1
      | some draw =>
          match collectScalars src (start + 1) c with
          | .ok rest => .ok (randFieldElement draw :: rest)
          | .err e => .err e
          | .exit code => .exit code

/-- `randBlob` with the fallible source. -/
def randBlobProc (src : ℕ → Option ℕ) (start : ℕ) : ProcResult (List ℕ) :=
  collectScalars src start scalarsPerBlob

/-- `randBlobs` with the fallible source: blob `i` consumes draws
`i * 4096` through `i * 4096 + 4095`. -/
def randBlobsProc (src : ℕ → Option ℕ) : ℕ → ℕ → ProcResult (List (List ℕ))
  | _, 0 => .ok []
  | start, n + 1 =>
      match randBlobProc src start with
      | .ok blob =>
          match randBlobsProc src (start + scalarsPerBlob) n with
          | .ok rest => .ok (blob :: rest)
          | .err e => .err e
          | .exit code => .exit code
      | .err e => .err e
      | .exit code => .exit code

/-- A chain header as read by the builders: number, base fee, and the
excess-blob-gas accounting fields. -/
structure ChainHeader where
  number : ℕ
  baseFee : ℤ
  excessBlobGas : ℕ
  blobGasUsed : ℕ

/-- The three independent chain reads both builders perform. -/
structure ChainReads where
  pendingNonce : Except String ℕ
  latestHeader : Except String ChainHeader
  networkID : Except String ℕ

/-- big.NewInt(1), the package-level default when no priority fee is
supplied (sendtx.go line 32; the environment override is out of scope). -/
def defaultPriorityFeeGwei : ℤ := 1

/-- The priority fee used by `SelfETHTransfer` (lines 104-108): a non-nil
argument is multiplied by 1, i.e. interpreted as wei. -/
def selfTransferPriorityFee (p : Option ℤ) : ℤ :=
  match p with
  | none => defaultPriorityFeeGwei
  | some v => v * 1

/-- The priority fee used by `ExecuteBlobTransaction` (lines 206-210): a
non-nil argument is multiplied by 1e9, i.e. interpreted as gwei. -/
def blobTxPriorityFee (p : Option ℤ) : ℤ :=
  match p with
  | none => defaultPriorityFeeGwei
  | some v => v * 1000000000

/-- The dynamic-fee transaction built by `SelfETHTransfer`. -/
structure DynamicFeeTx where
  nonce : ℕ
  toAddr : ℕ
  value : ℤ
  gas : ℕ
  gasFeeCap : ℤ
  gasTipCap : ℤ
deriving DecidableEq

/-- `SelfETHTransfer` (sendtx.go lines 69-136): three chain reads (each
failure returns the error), fee cap = base fee + priority fee, a
1,000,000-gas self transfer, sign (failure returns the error), target
block = header number + offset. -/
def selfETHTransfer (reads : ChainReads) (addr : ℕ) (value : ℤ) (offset : ℕ)
    (p : Option ℤ) (signOk : Bool) : ProcResult (DynamicFeeTx × ℕ) :=
  match reads.pendingNonce with
  | .error e => .err e
  | .ok nonce =>
    match reads.latestHeader with
    | .error e => .err e
    | .ok header =>
      match reads.networkID with
      | .error e => .err e
      | .ok _chainID =>
        let priorityFee := selfTransferPriorityFee p
        let maxFee := header.baseFee + priorityFee
        let tx : DynamicFeeTx :=
          { nonce := nonce, toAddr := addr, value := value, gas := 1000000,
            gasFeeCap := maxFee, gasTipCap := priorityFee }
        if signOk then .ok (tx, header.number + offset)
        else .err "failed to sign transaction"

/-- The blob transaction built by `ExecuteBlobTransaction`. -/
structure BlobTx where
  chainID : ℕ
  nonce : ℕ
  gasTipCap : ℤ
  gasFeeCap : ℤ
  gas : ℕ
  toAddr : ℕ
  blobFeeCap : ℤ
  blobHashes : List ℕ
  sidecar : BlobTxSidecar

/-- `ExecuteBlobTransaction` (sendtx.go lines 139-253): public-key cast
check, the three chain reads, blob base fee from the parent header's
excess-blob-gas accounting plus 1 then a 10 percent increase (big.Int.Div
is Euclidean), blob generation (a rand.Read failure exits the process),
sidecar and blob hashes, tip cap = priority fee in gwei scaled to wei,
fee cap = base fee + tip cap, sign, target block = number + offset. -/
def executeBlobTransaction (K : KZGScheme) (blobBaseFee : ChainHeader → ℤ)
    (keyOk : Bool) (reads : ChainReads) (src : ℕ → Option ℕ) (numBlobs : ℕ)
    (offset : ℕ) (p : Option ℤ) (fromAddr : ℕ) (signOk : Bool) :
    ProcResult (BlobTx × ℕ) :=
  if keyOk = false then .err "failed to cast public key to ECDSA"
  else
    match reads.pendingNonce with
    | .error e => .err e
    | .ok nonce =>
      match reads.latestHeader with
      | .error e => .err e
      | .ok header =>
        match reads.networkID with
        | .error e => .err e
        | .ok chainID =>
          let blobFeeCapBase := blobBaseFee header + 1
          match randBlobsProc src 0 numBlobs with
          | .err e => .err e
          | .exit code => .exit code
          | .ok blobs =>
            let sideCar := makeSidecar K blobs
            let blobHashes := sidecarBlobHashes K sideCar
            let blobFeeCap := blobFeeCapBase * 110 / 100
            let priorityFee := blobTxPriorityFee p
            let maxFeePriority := header.baseFee + priorityFee
            let tx : BlobTx :=
              { chainID := chainID, nonce := nonce, gasTipCap := priorityFee,
                gasFeeCap := maxFeePriority, gas := 1000000, toAddr := fromAddr,
                blobFeeCap := blobFeeCap, blobHashes := blobHashes,
                sidecar := sideCar }
            if signOk then .ok (tx, header.number + offset)
            else .err "failed to sign blob transaction"

theorem randBlobsProc_ok_length (src : ℕ → Option ℕ) :
    ∀ n start blobs, randBlobsProc src start n = .ok blobs → blobs.length = n := by
  intro n
  induction n with
  | zero =>
      intro start blobs h
      injection h with h
      rw [← h]
      rfl
  | succ n ih =>
      intro start blobs h
      rw [randBlobsProc] at h
      cases h1 : randBlobProc src start with
      | ok blob =>
          rw [h1] at h
          cases h2 : randBlobsProc src (start + scalarsPerBlob) n with
          | ok rest =>
              rw [h2] at h
              injection h with h
              rw [← h, List.length_cons, ih (start + scalarsPerBlob) rest h2]
          | err e =>
              rw [h2] at h
              exact ProcResult.noConfusion h
          | exit code =>
              rw [h2] at h
              exact ProcResult.noConfusion h
      | err e =>
          rw [h1] at h
          exact ProcResult.noConfusion h
      | exit code =>
          rw [h1] at h
          exact ProcResult.noConfusion h

theorem collectScalars_exit (src : ℕ → Option ℕ) :
    ∀ cnt start c, collectScalars src start cnt = .exit c →
      c = 1 ∧ ∃ i, src i = none := by
  intro cnt
  induction cnt with
  | zero =>
      intro start c h
      exact ProcResult.noConfusion h
  | succ cnt ih =>
      intro start c h
      rw [collectScalars] at h
      cases hs : src start with
      | none =>
          rw [hs] at h
          injection h with h
          exact ⟨h.symm, start, hs⟩
      | some d =>
          rw [hs] at h
          cases h2 : collectScalars src (start + 1) cnt with
          | ok rest =>
              rw [h2] at h
              exact ProcResult.noConfusion h
          | err e =>
              rw [h2] at h
              exact ProcResult.noConfusion h
          | exit code =>
              rw [h2] at h
              injection h with h
              subst h
              exact ih (start + 1) code h2

theorem randBlobsProc_exit (src : ℕ → Option ℕ) :
    ∀ n start c, randBlobsProc src start n = .exit c →
      c = 1 ∧ ∃ i, src i = none := by
  intro n
  induction n with
  | zero =>
      intro start c h
      exact ProcResult.noConfusion h
  | succ n ih =>
      intro start c h
      rw [randBlobsProc] at h
      cases h1 : randBlobProc src start with
      | ok blob =>
          rw [h1] at h
          cases h2 : randBlobsProc src (start + scalarsPerBlob) n with
          | ok rest =>
              rw [h2] at h
              exact ProcResult.noConfusion h
          | err e =>
              rw [h2] at h
              exact ProcResult.noConfusion h
          | exit code =>
              rw [h2] at h
              injection h with h
              subst h
              exact ih (start + scalarsPerBlob) code h2
      | err e =>
          rw [h1] at h
          exact ProcResult.noConfusion h
      | exit code =>
          rw [h1] at h
          injection h with h
          subst h
          exact collectScalars_exit src scalarsPerBlob start code h1

theorem selfETHTransfer_ok_shape (reads : ChainReads) (addr : ℕ) (value : ℤ)
    (offset : ℕ) (p : Option ℤ) (signOk : Bool) (tx : DynamicFeeTx) (bn : ℕ)
    (h : selfETHTransfer reads addr value offset p signOk = .ok (tx, bn)) :
    ∃ nonce header chainID,
      reads.pendingNonce = .ok nonce ∧
      reads.latestHeader = .ok header ∧
      reads.networkID = .ok chainID ∧
      tx = { nonce := nonce, toAddr := addr, value := value, gas := 1000000,
             gasFeeCap := header.baseFee + selfTransferPriorityFee p,
             gasTipCap := selfTransferPriorityFee p } ∧
      bn = header.number + offset := by
  unfold selfETHTransfer at h
  cases h1 : reads.pendingNonce with
  | error e => rw [h1] at h; exact ProcResult.noConfusion h
  | ok nonce =>
      rw [h1] at h
      cases h2 : reads.latestHeader with
      | error e => rw [h2] at h; exact ProcResult.noConfusion h
      | ok header =>
          rw [h2] at h
          cases h3 : reads.networkID with
          | error e => rw [h3] at h; exact ProcResult.noConfusion h
          | ok chainID =>
              rw [h3] at h
              cases hs : signOk with
              | false => rw [hs] at h; exact ProcResult.noConfusion h
              | true =>
                  rw [hs] at h
                  simp only [if_true] at h
                  injection h with h
                  rw [Prod.ext_iff] at h
                  exact ⟨nonce, header, chainID, rfl, rfl, rfl, h.1.symm, h.2.symm⟩

theorem executeBlobTransaction_ok_shape (K : KZGScheme)
    (bf : ChainHeader → ℤ) (keyOk : Bool) (reads : ChainReads)
    (src : ℕ → Option ℕ) (n offset : ℕ) (p : Option ℤ) (fromAddr : ℕ)
    (signOk : Bool) (tx : BlobTx) (bn : ℕ)
    (h : executeBlobTransaction K bf keyOk reads src n offset p fromAddr signOk
        = .ok (tx, bn)) :
    ∃ nonce header chainID blobs,
      reads.pendingNonce = .ok nonce ∧
      reads.latestHeader = .ok header ∧
      reads.networkID = .ok chainID ∧
      randBlobsProc src 0 n = .ok blobs ∧
      tx = { chainID := chainID, nonce := nonce,
             gasTipCap := blobTxPriorityFee p,
             gasFeeCap := header.baseFee + blobTxPriorityFee p,
             gas := 1000000, toAddr := fromAddr,
             blobFeeCap := (bf header + 1) * 110 / 100,
             blobHashes := sidecarBlobHashes K (makeSidecar K blobs),
             sidecar := makeSidecar K blobs } ∧
      bn = header.number + offset := by
  unfold executeBlobTransaction at h
  cases hk : keyOk with
  | false => rw [hk] at h; exact ProcResult.noConfusion h
  | true =>
      rw [hk] at h
      simp only [Bool.true_eq_false, if_false] at h
      cases h1 : reads.pendingNonce with
      | error e => rw [h1] at h; exact ProcResult.noConfusion h
      | ok nonce =>
          rw [h1] at h
          cases h2 : reads.latestHeader with
          | error e => rw [h2] at h; exact ProcResult.noConfusion h
          | ok header =>
              rw [h2] at h
              cases h3 : reads.networkID with
              | error e => rw [h3] at h; exact ProcResult.noConfusion h
              | ok chainID =>
                  rw [h3] at h
                  cases h4 : randBlobsProc src 0 n with
                  | err e => rw [h4] at h; exact ProcResult.noConfusion h
                  | exit code => rw [h4] at h; exact ProcResult.noConfusion h
                  | ok blobs =>
                      rw [h4] at h
                      cases hs : signOk with
                      | false => rw [hs] at h; exact ProcResult.noConfusion h
                      | true =>
                          rw [hs] at h
                          simp only [if_true] at h
                          injection h with h
                          rw [Prod.ext_iff] at h
                          exact ⟨nonce, header, chainID, blobs, rfl, rfl, rfl, rfl,
                            h.1.symm, h.2.symm⟩

/-- C4: whenever `ExecuteBlobTransaction` succeeds with blobCount k >= 1,
the signed transaction carries exactly k blob hashes; the sidecar's blob,
commitment and proof arrays all have length k and are index-aligned (the
i-th commitment and proof are computed from the i-th blob); and the blob
hash list is exactly the commitment list mapped through the versioned
hash derivation, so the i-th blob hash is derived from the i-th sidecar
commitment. -/
theorem executeBlob_sidecar_aligned (K : KZGScheme) (bf : ChainHeader → ℤ)
    (keyOk : Bool) (reads : ChainReads) (src : ℕ → Option ℕ) (k offset : ℕ)
    (p : Option ℤ) (fromAddr : ℕ) (signOk : Bool) (tx : BlobTx) (bn : ℕ)
    (hk : 1 ≤ k)
    (h : executeBlobTransaction K bf keyOk reads src k offset p fromAddr signOk
        = .ok (tx, bn)) :
    tx.blobHashes.length = k ∧
    tx.sidecar.blobs.length = k ∧
    tx.sidecar.commitments.length = k ∧
    tx.sidecar.proofs.length = k ∧
    tx.blobHashes = tx.sidecar.commitments.map K.hashFromCommitment ∧
    tx.sidecar.commitments = tx.sidecar.blobs.map K.blobToCommitment ∧
    tx.sidecar.proofs =
      tx.sidecar.blobs.map (fun b => K.computeBlobProof b (K.blobToCommitment b)) := by
  obtain ⟨nonce, header, chainID, blobs, _, _, _, h4, htx, _⟩ :=
    executeBlobTransaction_ok_shape K bf keyOk reads src k offset p fromAddr
      signOk tx bn h
  have hlen : blobs.length = k := randBlobsProc_ok_length src k 0 blobs h4
  subst htx
  simp [makeSidecar, sidecarBlobHashes, List.length_map, hlen]

/-- Demonstration kzg scheme for concrete instantiations. -/
def kzgDemo : KZGScheme :=
  { blobToCommitment := fun b => b.length
    computeBlobProof := fun b c => b.length + c
    hashFromCommitment := fun c => c + 1 }

/-- Demonstration chain reads: all three succeed. -/
def readsDemo : ChainReads :=
  { pendingNonce := .ok 5
    latestHeader := .ok { number := 100, baseFee := 1000,
                          excessBlobGas := 0, blobGasUsed := 0 }
    networkID := .ok 7 }

theorem collectScalars_total (src : ℕ → Option ℕ) (f : ℕ → ℕ)
    (hsrc : ∀ i, src i = some (f i)) :
    ∀ cnt start, collectScalars src start cnt =
      .ok ((List.range cnt).map (fun j => randFieldElement (f (start + j)))) := by
  intro cnt
  induction cnt with
  | zero => intro start; rfl
  | succ cnt ih =>
      intro start
      rw [collectScalars, hsrc start, ih (start + 1)]
      dsimp only
      rw [List.range_succ_eq_map, List.map_cons, List.map_map]
      congr 1
      congr 1
      apply List.map_congr_left
      intro a _
      have harith : start + 1 + a = start + (a + 1) := by omega
      simp [Function.comp, harith]

/-- The blob generated from the all-zero random source. -/
def demoBlob : List ℕ :=
  (List.range scalarsPerBlob).map (fun _ => randFieldElement 0)

theorem randBlobsProc_zeroSource_one :
    randBlobsProc (fun _ => some 0) 0 1 = .ok [demoBlob] := by
  have hc := collectScalars_total (fun _ => some 0) (fun _ => 0)
    (fun _ => rfl) scalarsPerBlob 0
  rw [randBlobsProc, randBlobProc, hc, randBlobsProc]
  rfl

/-- The transaction produced by the demonstration one-blob build. -/
def demoBlobTx : BlobTx :=
  { chainID := 7, nonce := 5, gasTipCap := blobTxPriorityFee (some 1),
    gasFeeCap := 1000 + blobTxPriorityFee (some 1), gas := 1000000,
    toAddr := 9, blobFeeCap := (0 + 1) * 110 / 100,
    blobHashes := sidecarBlobHashes kzgDemo (makeSidecar kzgDemo [demoBlob]),
    sidecar := makeSidecar kzgDemo [demoBlob] }

theorem executeBlob_demo :
    executeBlobTransaction kzgDemo (fun _ => 0) true readsDemo
        (fun _ => some 0) 1 1 (some 1) 9 true = .ok (demoBlobTx, 101) := by
  unfold executeBlobTransaction
  rw [show readsDemo.pendingNonce = .ok 5 from rfl,
    show readsDemo.latestHeader =
      .ok { number := 100, baseFee := 1000, excessBlobGas := 0,
            blobGasUsed := 0 } from rfl,
    show readsDemo.networkID = .ok 7 from rfl,
    randBlobsProc_zeroSource_one]
  rfl

/-- C4 witness: the concrete one-blob build has one blob hash, a
one-entry aligned sidecar, and hashes derived from the commitments. -/
theorem executeBlob_sidecar_aligned_witness :
    demoBlobTx.blobHashes.length = 1 ∧
    demoBlobTx.sidecar.blobs.length = 1 ∧
    demoBlobTx.sidecar.commitments.length = 1 ∧
    demoBlobTx.sidecar.proofs.length = 1 ∧
    demoBlobTx.blobHashes =
      demoBlobTx.sidecar.commitments.map kzgDemo.hashFromCommitment ∧
    demoBlobTx.sidecar.commitments =
      demoBlobTx.sidecar.blobs.map kzgDemo.blobToCommitment ∧
    demoBlobTx.sidecar.proofs =
      demoBlobTx.sidecar.blobs.map
        (fun b => kzgDemo.computeBlobProof b (kzgDemo.blobToCommitment b)) :=
  executeBlob_sidecar_aligned kzgDemo (fun _ => 0) true readsDemo
    (fun _ => some 0) 1 1 (some 1) 9 true demoBlobTx 101 (by norm_num)
    executeBlob_demo

/-- C9 (amended): every chain-read, key-cast and signing failure in
`SelfETHTransfer` returns an error value (the function never exits the
process), and the only way `ExecuteBlobTransaction` terminates the
process is through `randFieldElement`: an exit has code 1 and requires a
failure of the random-bytes source.  The claim's assertion that even a
random-source failure is returned as an error is refuted by the
counterexample: that failure calls os.Exit(1). -/
theorem builderErrors_returned (reads : ChainReads) (addr : ℕ) (value : ℤ)
    (off : ℕ) (p : Option ℤ) (sOk : Bool) (K : KZGScheme)
    (bf : ChainHeader → ℤ) (kOk : Bool) (reads2 : ChainReads)
    (src : ℕ → Option ℕ) (n off2 : ℕ) (p2 : Option ℤ) (addr2 : ℕ)
    (sOk2 : Bool) :
    exitsProcess (selfETHTransfer reads addr value off p sOk) = false ∧
    (∀ c,
        executeBlobTransaction K bf kOk reads2 src n off2 p2 addr2 sOk2 =
          .exit c →
        c = 1 ∧ ∃ i, src i = none) := by
  constructor
  · rcases reads with ⟨pn, lh, nid⟩
    cases pn <;> cases lh <;> cases nid <;> cases sOk <;>
      simp [selfETHTransfer, exitsProcess]
  · intro c h
    unfold executeBlobTransaction at h
    cases hk2 : kOk with
    | false => rw [hk2] at h; exact ProcResult.noConfusion h
    | true =>
        rw [hk2] at h
        simp only [Bool.true_eq_false, if_false] at h
        cases h1 : reads2.pendingNonce with
        | error e => rw [h1] at h; exact ProcResult.noConfusion h
        | ok nonce =>
            rw [h1] at h
            cases h2 : reads2.latestHeader with
            | error e => rw [h2] at h; exact ProcResult.noConfusion h
            | ok header =>
                rw [h2] at h
                cases h3 : reads2.networkID with
                | error e => rw [h3] at h; exact ProcResult.noConfusion h
                | ok chainID =>
                    rw [h3] at h
                    cases h4 : randBlobsProc src 0 n with
                    | err e => rw [h4] at h; exact ProcResult.noConfusion h
                    | exit code =>
                        rw [h4] at h
                        injection h with h
                        subst h
                        exact randBlobsProc_exit src n 0 code h4
                    | ok blobs =>
                        rw [h4] at h
                        cases hs : sOk2 with
                        | false => rw [hs] at h; exact ProcResult.noConfusion h
                        | true =>
                            rw [hs] at h
                            simp only [if_true] at h
                            exact ProcResult.noConfusion h

/-- C9 witness: with all chain reads succeeding, the self-transfer build
never exits the process, and an exit of the blob build implies code 1 and
a failed random draw. -/
theorem builderErrors_returned_witness :
    exitsProcess (selfETHTransfer readsDemo 9 1000000000 1 (some 1) true)
        = false ∧
      (1 = 1 ∧ ∃ i : ℕ, (none : Option ℕ) = none) :=
  ⟨(builderErrors_returned readsDemo 9 1000000000 1 (some 1) true kzgDemo
      (fun _ => 0) true readsDemo (fun _ => none) 1 1 (some 1) 9 true).1,
   (builderErrors_returned readsDemo 9 1000000000 1 (some 1) true kzgDemo
      (fun _ => 0) true readsDemo (fun _ => none) 1 1 (some 1) 9 true).2 1 rfl⟩

/-- C9 counterexample: when the random-bytes source fails during blob
generation, `ExecuteBlobTransaction` does not return an error value to
its caller — the process terminates through os.Exit(1). -/
theorem executeBlob_randFailure_exits :
    executeBlobTransaction kzgDemo (fun _ => 0) true readsDemo
        (fun _ => none) 1 1 (some 1) 9 true = .exit 1 := rfl

/-- C10: for the same non-nil priority-fee argument v, `SelfETHTransfer`
sets the gas tip cap to v (wei, multiplied by 1) while
`ExecuteBlobTransaction` sets it to v * 10^9 (gwei scaled to wei), so on
any pair of successful builds the blob transaction's tip cap is exactly
10^9 times the self-transfer's. -/
theorem blobTipCap_ratio (v : ℤ) (reads : ChainReads) (addr : ℕ) (value : ℤ)
    (off : ℕ) (sOk : Bool) (K : KZGScheme) (bf : ChainHeader → ℤ)
    (kOk : Bool) (reads2 : ChainReads) (src : ℕ → Option ℕ) (n off2 : ℕ)
    (addr2 : ℕ) (sOk2 : Bool) (t1 : DynamicFeeTx) (b1 : ℕ) (t2 : BlobTx)
    (b2 : ℕ)
    (h1 : selfETHTransfer reads addr value off (some v) sOk = .ok (t1, b1))
    (h2 : executeBlobTransaction K bf kOk reads2 src n off2 (some v) addr2 sOk2
        = .ok (t2, b2)) :
    t1.gasTipCap = v * 1 ∧ t2.gasTipCap = v * 1000000000 ∧
      t2.gasTipCap = 1000000000 * t1.gasTipCap := by
  obtain ⟨n1, hd1, c1, _, _, _, ht1, _⟩ :=
    selfETHTransfer_ok_shape reads addr value off (some v) sOk t1 b1 h1
  obtain ⟨n2, hd2, c2, blobs, _, _, _, _, ht2, _⟩ :=
    executeBlobTransaction_ok_shape K bf kOk reads2 src n off2 (some v) addr2
      sOk2 t2 b2 h2
  subst ht1
  subst ht2
  refine ⟨rfl, rfl, ?_⟩
  show blobTxPriorityFee (some v) = 1000000000 * selfTransferPriorityFee (some v)
  simp only [blobTxPriorityFee, selfTransferPriorityFee]
  ring

/-- The transaction of the demonstration self-transfer build. -/
def selfDemoTx : DynamicFeeTx :=
  { nonce := 5, toAddr := 9, value := 1000000000, gas := 1000000,
    gasFeeCap := 1000 + selfTransferPriorityFee (some 1),
    gasTipCap := selfTransferPriorityFee (some 1) }

/-- The transaction of the demonstration zero-blob build. -/
def blobZeroTx : BlobTx :=
  { chainID := 7, nonce := 5, gasTipCap := blobTxPriorityFee (some 1),
    gasFeeCap := 1000 + blobTxPriorityFee (some 1), gas := 1000000,
    toAddr := 9, blobFeeCap := (0 + 1) * 110 / 100,
    blobHashes := sidecarBlobHashes kzgDemo (makeSidecar kzgDemo []),
    sidecar := makeSidecar kzgDemo [] }

/-- C10 witness: with priority fee 1, the demonstration builds have tip
caps 1 wei and 10^9 wei respectively — a factor of exactly 10^9. -/
theorem blobTipCap_ratio_witness :
    selfDemoTx.gasTipCap = 1 * 1 ∧ blobZeroTx.gasTipCap = 1 * 1000000000 ∧
      blobZeroTx.gasTipCap = 1000000000 * selfDemoTx.gasTipCap :=
  blobTipCap_ratio 1 readsDemo 9 1000000000 1 true kzgDemo (fun _ => 0) true
    readsDemo (fun _ => some 0) 0 1 9 true selfDemoTx 101 blobZeroTx 101
    rfl rfl

end PreconfBot
